import Mathlib

/-!
Shallow embedding of the ASTERIX parser (src/parser.js) and verification of
the specification's claims about it.

The buffer (`Uint8Array` in the source) is modelled as `List Byte` with
`Byte := Fin 256`; `view[off]` on a `Uint8Array` yields `undefined` out of
range, which JavaScript bitwise operators coerce to 0 — `jsByte` captures the
post-coercion value.  JavaScript's 32-bit operators (`|`, `&`, `<<`) are
modelled exactly (`jsOr`, `jsAnd`, `jsShl` over `toInt32`/`toUint32`), since
the byte-primitive claims hinge on their wrap-around.  Decoded values
(arbitrary JSON-ish objects in the source) are modelled by `Val`, with exact
rational arithmetic for the scaled numeric fields.
-/

abbrev Byte := Fin 256

/-- `view[off]` as used inside a JS bitwise/arithmetic context:
an in-range read gives the byte, an out-of-range read gives `undefined`,
which `ToInt32`/`ToNumber` coerce to 0. -/
def jsByte (view : List Byte) (off : Nat) : Nat :=
  match view[off]? with
  | some b => b.val
  | none => 0

/-- JS `ToUint32`: the operand's value modulo 2^32, as a natural number. -/
def toUint32 (n : Int) : Nat := (n % 4294967296).toNat

/-- JS `ToInt32`: the operand's low 32 bits reinterpreted as a signed integer. -/
def toInt32 (n : Int) : Int :=
  let m := toUint32 n
  if m < 2147483648 then (m : Int) else (m : Int) - 4294967296

/-- JS `a | b` (32-bit signed bitwise or). -/
def jsOr (a b : Int) : Int := toInt32 ((toUint32 a) ||| (toUint32 b))

/-- JS `a & b` (32-bit signed bitwise and). -/
def jsAnd (a b : Int) : Int := toInt32 ((toUint32 a) &&& (toUint32 b))

/-- JS `a << k` (32-bit signed left shift; our call sites use k = 8 or 16 < 32). -/
def jsShl (a : Int) (k : Nat) : Int := toInt32 ((toUint32 a) <<< k)

/-- `readU16BE(view, off)`: `(view[off] << 8) | view[off + 1]`. -/
def readU16BE (view : List Byte) (off : Nat) : Int :=
  jsOr (jsShl (jsByte view off) 8) (jsByte view (off + 1))

/-- `readI16BE(view, off)`: `v & 0x8000 ? v - 0x10000 : v` on the unsigned read. -/
def readI16BE (view : List Byte) (off : Nat) : Int :=
  let v := readU16BE view off
  if jsAnd v 32768 ≠ 0 then v - 65536 else v

/-- `readU24BE(view, off)`: `(view[off] << 16) | (view[off+1] << 8) | view[off+2]`. -/
def readU24BE (view : List Byte) (off : Nat) : Int :=
  jsOr (jsOr (jsShl (jsByte view off) 16) (jsShl (jsByte view (off + 1)) 8))
    (jsByte view (off + 2))

/-- `readU32BE(view, off)`:
`(view[off] * 2 ** 24) | (view[off+1] << 16) | (view[off+2] << 8) | view[off+3]`.
The multiplication is exact, but each `|` coerces through `ToInt32`. -/
def readU32BE (view : List Byte) (off : Nat) : Int :=
  jsOr (jsOr (jsOr ((jsByte view off : Int) * 16777216) (jsShl (jsByte view (off + 1)) 16))
      (jsShl (jsByte view (off + 2)) 8))
    (jsByte view (off + 3))

/-- `readI32BE(view, off)`: `v = readU32BE(...) >>> 0; v & 0x80000000 ? v - 0x100000000 : v`. -/
def readI32BE (view : List Byte) (off : Nat) : Int :=
  let v : Nat := toUint32 (readU32BE view off)
  if jsAnd (v : Int) 2147483648 ≠ 0 then (v : Int) - 4294967296 else (v : Int)

/-- Lowercase hex digit, as produced by `b.toString(16)`. -/
def hexDigit (n : Nat) : Char :=
  if n < 10 then Char.ofNat (48 + n) else Char.ofNat (87 + n)

/-- One byte as two lowercase hex characters (`toString(16).padStart(2, "0")`). -/
def hexByte (b : Byte) : String :=
  String.mk [hexDigit (b.val / 16), hexDigit (b.val % 16)]

/-- Hex rendering of a byte list. -/
def hexStr (l : List Byte) : String := String.join (l.map hexByte)

/-- `toHex(view, off, len)`: hex of `view.slice(off, off + len)`. -/
def toHex (view : List Byte) (off len : Nat) : String :=
  hexStr ((view.drop off).take len)

/-- The FX-continuation loop shared by `parseFSPEC`, `parseFxChainRaw` and the
`I048/020` decoder: consume octets until one with clear LSB; `none` models the
`Truncated ...` throw when the buffer runs out first. -/
def fxOctets : List Byte → Option (List Byte)
  | [] => none
  | b :: rest =>
    if b.val &&& 1 = 0 then some [b]
    else (fxOctets rest).map (fun o => b :: o)

/-- Bits 7..1 of one FSPEC byte, MSB first, FX bit excluded
(the unrolled `for (let i = 7; i >= 1; i--)` loop). -/
def byteBits (b : Nat) : List Nat :=
  [(b >>> 7) &&& 1, (b >>> 6) &&& 1, (b >>> 5) &&& 1, (b >>> 4) &&& 1,
   (b >>> 3) &&& 1, (b >>> 2) &&& 1, (b >>> 1) &&& 1]

/-- Flattened FSPEC bit sequence of the chained bytes. -/
def bitsOf (bs : List Byte) : List Nat := (bs.map (fun b => byteBits b.val)).flatten

/-- `parseFSPEC(view, start)`: the FSPEC bytes, the offset just past them, and
the flattened bit list; `none` models the `Truncated FSPEC` throw. -/
def parseFSPEC (view : List Byte) (start : Nat) :
    Option (List Byte × Nat × List Nat) :=
  (fxOctets (view.drop start)).map (fun bs => (bs, start + bs.length, bitsOf bs))

/-- Scalar JSON values appearing in decoded items. -/
inductive Scalar where
  | num (q : ℚ)
  | str (s : String)
  | sbool (b : Bool)
  | snull
deriving DecidableEq, Repr

/-- A decoded value: a scalar or a flat object (all objects built by the
parser are one level deep). -/
inductive Val where
  | scalar (s : Scalar)
  | obj (fields : List (String × Scalar))
deriving DecidableEq, Repr

/-- An item decoder: `(view, off) => { value, length }`, with thrown errors
modelled by `Except.error` carrying the message. -/
abbrev Decoder := List Byte → Nat → Except String (Val × Nat)

/-- `parseFxChainRaw(view, off, name)`: FX-chained octets kept as raw hex. -/
def parseFxChainRaw (view : List Byte) (off : Nat) (name : String) :
    Except String (Val × Nat) :=
  match fxOctets (view.drop off) with
  | none => .error ("Truncated " ++ name)
  | some octets => .ok (.obj [("raw", .str (hexStr octets))], octets.length)

/-- `parseLenPrefixedOrFx(view, off, name)`: try `1 + 2*rep` bytes when the
REP byte exists and fits, else fall back to the FX chain. -/
def parseLenPrefixedOrFx (view : List Byte) (off : Nat) (name : String) :
    Except String (Val × Nat) :=
  match view[off]? with
  | some rep =>
    if off + 1 + 2 * rep.val ≤ view.length then
      .ok (.obj [("raw", .str (toHex view off (1 + 2 * rep.val)))], 1 + 2 * rep.val)
    else parseFxChainRaw view off name
  | none => parseFxChainRaw view off name

/-- `DECODERS[34]["I034/010"]` – Data Source Identifier (SAC, SIC). -/
def decI034_010 : Decoder := fun view off =>
  if view.length < off + 2 then .error "Truncated I034/010"
  else .ok (.obj [("sac", .num (jsByte view off)), ("sic", .num (jsByte view (off + 1)))], 2)

/-- `DECODERS[34]["I034/000"]` – Message Type with its name table. -/
def decI034_000 : Decoder := fun view off =>
  if view.length < off + 1 then .error "Truncated I034/000"
  else
    let t := jsByte view off
    let name :=
      if t = 1 then "North Marker"
      else if t = 2 then "Sector Crossing"
      else if t = 3 then "Geographical Filtering"
      else if t = 4 then "Jamming Strobe"
      else if t = 5 then "Solar Storm"
      else if t = 6 then "SSR Jamming Strobe"
      else if t = 7 then "Mode S Jamming Strobe"
      else "Unknown"
    .ok (.obj [("type", .num t), ("name", .str name)], 1)

/-- `DECODERS[34]["I034/030"]` – Time-of-Day; the JS 24-bit shift/or on
in-range bytes equals `65536*b0 + 256*b1 + b2`. -/
def decI034_030 : Decoder := fun view off =>
  if view.length < off + 3 then .error "Truncated I034/030"
  else
    let raw := 65536 * jsByte view off + 256 * jsByte view (off + 1) + jsByte view (off + 2)
    .ok (.obj [("raw", .num raw), ("seconds", .num ((raw : ℚ) / 128))], 3)

/-- `DECODERS[34]["I034/020"]` – Sector Number, LSB = 360/256 degrees. -/
def decI034_020 : Decoder := fun view off =>
  if view.length < off + 1 then .error "Truncated I034/020"
  else
    let raw := jsByte view off
    let degPerLsb : ℚ := 360 / 256
    .ok (.obj [("raw", .num raw), ("sector_deg", .num (raw * degPerLsb))], 1)

/-- `DECODERS[34]["I034/041"]` – Antenna Rotation Period; `rpm` is `null`
unless `seconds > 0`. -/
def decI034_041 : Decoder := fun view off =>
  if view.length < off + 2 then .error "Truncated I034/041"
  else
    let raw := 256 * jsByte view off + jsByte view (off + 1)
    let seconds : ℚ := (raw : ℚ) / 128
    let rpm : Scalar := if 0 < seconds then .num (60 / seconds) else .snull
    .ok (.obj [("raw", .num raw), ("seconds", .num seconds), ("rpm", rpm)], 2)

/-- `DECODERS[34]["I034/100"]` – Generic Polar Window (8 bytes). -/
def decI034_100 : Decoder := fun view off =>
  if view.length < off + 8 then .error "Truncated I034/100"
  else
    let rhoStart := 256 * jsByte view off + jsByte view (off + 1)
    let rhoEnd := 256 * jsByte view (off + 2) + jsByte view (off + 3)
    let thStart := 256 * jsByte view (off + 4) + jsByte view (off + 5)
    let thEnd := 256 * jsByte view (off + 6) + jsByte view (off + 7)
    .ok (.obj
      [("rho_start_nm", .num ((rhoStart : ℚ) / 256)),
       ("rho_end_nm", .num ((rhoEnd : ℚ) / 256)),
       ("theta_start_deg", .num ((thStart : ℚ) * 360 / 65536)),
       ("theta_end_deg", .num ((thEnd : ℚ) * 360 / 65536))], 8)

/-- `DECODERS[34]["I034/110"]` – Data Filter with its name table. -/
def decI034_110 : Decoder := fun view off =>
  if view.length < off + 1 then .error "Truncated I034/110"
  else
    let t := jsByte view off
    let name :=
      if t = 1 then "Weather"
      else if t = 2 then "Jamming Strobe"
      else if t = 3 then "PSR"
      else if t = 4 then "SSR/Mode S"
      else if t = 5 then "SSR/Mode S + PSR"
      else if t = 6 then "Enhanced Surveillance"
      else if t = 7 then "PSR + Enhanced Surveillance"
      else if t = 8 then "PSR+ES + SSR/Mode S not in AoI"
      else if t = 9 then "PSR+ES + all SSR/Mode S"
      else "Unknown/Reserved"
    .ok (.obj [("type", .num t), ("name", .str name)], 1)

/-- `DECODERS[34]["I034/120"]` – 3D Position: signed 16-bit height, two
signed 24-bit angles scaled by 180/2^23. -/
def decI034_120 : Decoder := fun view off =>
  if view.length < off + 8 then .error "Truncated I034/120"
  else
    let hRaw := 256 * jsByte view off + jsByte view (off + 1)
    let height_m : Int := if hRaw &&& 32768 ≠ 0 then (hRaw : Int) - 65536 else (hRaw : Int)
    let lat24 := 65536 * jsByte view (off + 2) + 256 * jsByte view (off + 3) + jsByte view (off + 4)
    let lon24 := 65536 * jsByte view (off + 5) + 256 * jsByte view (off + 6) + jsByte view (off + 7)
    let toSigned24 : Nat → Int := fun x =>
      if x &&& 8388608 ≠ 0 then (x : Int) - 16777216 else (x : Int)
    let scale : ℚ := 180 / 2 ^ 23
    .ok (.obj
      [("height_m", .num (height_m : ℚ)),
       ("lat_deg", .num ((toSigned24 lat24 : ℚ) * scale)),
       ("lon_deg", .num ((toSigned24 lon24 : ℚ) * scale))], 8)

/-- `DECODERS[34]["I034/090"]` – Collimation Error: two byte-wise signed
fields of one 16-bit word. -/
def decI034_090 : Decoder := fun view off =>
  if view.length < off + 2 then .error "Truncated I034/090"
  else
    let raw16 := 256 * jsByte view off + jsByte view (off + 1)
    let rangeErr := (raw16 >>> 8) &&& 255
    let azErr := raw16 &&& 255
    let s8 : Nat → Int := fun x => if x &&& 128 ≠ 0 then (x : Int) - 256 else (x : Int)
    .ok (.obj
      [("range_err_nm", .num ((s8 rangeErr : ℚ) / 128)),
       ("az_err_deg", .num ((s8 azErr : ℚ) * (360 / ((1 <<< 14 : Nat) : ℚ))))], 2)

/-- `DECODERS[48]["I048/010"]` – Data Source Identifier (SAC, SIC). -/
def decI048_010 : Decoder := fun view off =>
  if view.length < off + 2 then .error "Truncated I048/010"
  else .ok (.obj [("sac", .num (jsByte view off)), ("sic", .num (jsByte view (off + 1)))], 2)

/-- `DECODERS[48]["I048/020"]` – Target Report Descriptor: FX-chained octets
plus flags of the first octet (`octets[0] ?? 0`). -/
def decI048_020 : Decoder := fun view off =>
  match fxOctets (view.drop off) with
  | none => .error "Truncated I048/020"
  | some octets =>
    let b0 := (octets.headD 0).val
    .ok (.obj
      [("raw", .str (hexStr octets)),
       ("detectionType", .num (((b0 >>> 5) &&& 7 : Nat) : ℚ)),
       ("simulated", .sbool (((b0 >>> 4) &&& 1) != 0)),
       ("reportedAsBad", .sbool (((b0 >>> 3) &&& 1) != 0)),
       ("testTarget", .sbool (((b0 >>> 2) &&& 1) != 0)),
       ("meaconing", .sbool (((b0 >>> 1) &&& 1) != 0))], octets.length)

/-- `DECODERS[48]["I048/040"]` – Measured Position in Polar. -/
def decI048_040 : Decoder := fun view off =>
  if view.length < off + 4 then .error "Truncated I048/040"
  else
    let rho := readU16BE view off
    let theta := readU16BE view (off + 2)
    .ok (.obj
      [("rho_raw", .num (rho : ℚ)), ("theta_raw", .num (theta : ℚ)),
       ("range_nm", .num ((rho : ℚ) / 256)),
       ("bearing_deg", .num ((theta : ℚ) * 360 / 65536))], 4)

/-- `DECODERS[48]["I048/070"]` – Mode 3/A code: 13 bits, four octal digits. -/
def decI048_070 : Decoder := fun view off =>
  if view.length < off + 2 then .error "Truncated I048/070"
  else
    let code : Nat := (jsAnd (readU16BE view off) 8191).toNat
    let d1 := (code >>> 9) &&& 7
    let d2 := (code >>> 6) &&& 7
    let d3 := (code >>> 3) &&& 7
    let d4 := code &&& 7
    .ok (.obj
      [("code_octal", .str (toString d1 ++ toString d2 ++ toString d3 ++ toString d4)),
       ("raw", .num code)], 2)

/-- `DECODERS[48]["I048/090"]` – Flight Level: signed 16-bit quarter-FL. -/
def decI048_090 : Decoder := fun view off =>
  if view.length < off + 2 then .error "Truncated I048/090"
  else
    let raw := readI16BE view off
    .ok (.obj [("raw", .num (raw : ℚ)), ("flightLevel", .num ((raw : ℚ) / 4))], 2)

/-- `DECODERS[48]["I048/220"]` – Calculated Track Velocity in Polar. -/
def decI048_220 : Decoder := fun view off =>
  if view.length < off + 4 then .error "Truncated I048/220"
  else
    let gsRaw := readU16BE view off
    let hdgRaw := readU16BE view (off + 2)
    let nm_per_s : ℚ := (gsRaw : ℚ) / 16384
    .ok (.obj
      [("gs_raw", .num (gsRaw : ℚ)), ("heading_raw", .num (hdgRaw : ℚ)),
       ("mps", .num (nm_per_s * 1852)), ("kts", .num (nm_per_s * 3600)),
       ("heading_deg", .num ((hdgRaw : ℚ) * 360 / 65536))], 4)

/-- `DECODERS[48]["I048/240"]` – Aircraft Address: 3 bytes as uppercase hex. -/
def decI048_240 : Decoder := fun view off =>
  if view.length < off + 3 then .error "Truncated I048/240"
  else .ok (.obj [("icao24", .str (String.map Char.toUpper (toHex view off 3)))], 3)

/-- `DECODERS[48]["I048/161"]` – Track Number: a bare unsigned 16-bit value. -/
def decI048_161 : Decoder := fun view off =>
  if view.length < off + 2 then .error "Truncated I048/161"
  else .ok (.scalar (.num (readU16BE view off : ℚ)), 2)

/-- `DECODERS[48]["I048/042"]` – Measured Position in Cartesian, signed. -/
def decI048_042 : Decoder := fun view off =>
  if view.length < off + 4 then .error "Truncated I048/042"
  else
    let x := readI16BE view off
    let y := readI16BE view (off + 2)
    let nmLSB : ℚ := 1 / 256
    .ok (.obj
      [("x_raw", .num (x : ℚ)), ("y_raw", .num (y : ℚ)),
       ("x_nm", .num ((x : ℚ) * nmLSB)), ("y_nm", .num ((y : ℚ) * nmLSB))], 4)

/-- `DECODERS[48]["I048/200"]` – Calculated Track Velocity in Cartesian. -/
def decI048_200 : Decoder := fun view off =>
  if view.length < off + 4 then .error "Truncated I048/200"
  else
    let vx := readI16BE view off
    let vy := readI16BE view (off + 2)
    let vx_nms : ℚ := (vx : ℚ) / 16384
    let vy_nms : ℚ := (vy : ℚ) / 16384
    .ok (.obj
      [("vx_raw", .num (vx : ℚ)), ("vy_raw", .num (vy : ℚ)),
       ("vx_mps", .num (vx_nms * 1852)), ("vy_mps", .num (vy_nms * 1852)),
       ("vx_kts", .num (vx_nms * 3600)), ("vy_kts", .num (vy_nms * 3600))], 4)

/-- `DECODERS[48]["I048/140"]` – Time of Day: 3 bytes, 1/128 s LSB. -/
def decI048_140 : Decoder := fun view off =>
  if view.length < off + 3 then .error "Truncated I048/140"
  else
    let raw := readU24BE view off
    .ok (.obj [("raw", .num (raw : ℚ)), ("seconds", .num ((raw : ℚ) / 128))], 3)
/-- The decoded record: `category`, `length` (declared), `fspec_hex`,
`items`, `rawItems` — the two maps as insertion-ordered association lists,
as JS object keys are. -/
structure Rec where
  category : Nat
  length : Nat
  fspec_hex : String
  items : List (String × Val)
  rawItems : List (String × Val)
deriving DecidableEq, Repr

/-- `CATEGORY_DEFS[48].uap` — CAT 048 UAP, in FSPEC bit order. -/
def uap48 : List String :=
  ["I048/010", "I048/020", "I048/040", "I048/070", "I048/090", "I048/130", "I048/220",
   "I048/240", "I048/250", "I048/161", "I048/042", "I048/200", "I048/170", "I048/030",
   "I048/080", "I048/100", "I048/110", "I048/120", "I048/140", "I048/230",
   "I048/260", "I048/055", "I048/065", "I048/071", "I048/072", "I048/073", "I048/075"]

/-- `CATEGORY_DEFS[34].uap` — CAT 034 UAP, in FSPEC bit order. -/
def uap34 : List String :=
  ["I034/010", "I034/000", "I034/030", "I034/020", "I034/041", "I034/050", "I034/060",
   "I034/070", "I034/100", "I034/110", "I034/120", "I034/090", "I034/RE", "I034/SP"]

/-- `CATEGORY_DEFS[cat]` — the category registry (object property lookup). -/
def CATEGORY_DEFS (cat : Nat) : Option (List String) :=
  if cat = 34 then some uap34 else if cat = 48 then some uap48 else none

/-- `DECODERS[34]` — the CAT 034 decoder map, in source order. -/
def dec34map : List (String × Decoder) :=
  [("I034/010", decI034_010),
   ("I034/000", decI034_000),
   ("I034/030", decI034_030),
   ("I034/020", decI034_020),
   ("I034/041", decI034_041),
   ("I034/050", fun view off => parseFxChainRaw view off "I034/050"),
   ("I034/060", fun view off => parseFxChainRaw view off "I034/060"),
   ("I034/070", fun view off => parseLenPrefixedOrFx view off "I034/070"),
   ("I034/100", decI034_100),
   ("I034/110", decI034_110),
   ("I034/120", decI034_120),
   ("I034/090", decI034_090),
   ("I034/RE", fun view off => parseFxChainRaw view off "I034/RE"),
   ("I034/SP", fun view off => parseFxChainRaw view off "I034/SP")]

/-- `DECODERS[48]` — the CAT 048 decoder map, in source order. -/
def dec48map : List (String × Decoder) :=
  [("I048/010", decI048_010),
   ("I048/020", decI048_020),
   ("I048/040", decI048_040),
   ("I048/070", decI048_070),
   ("I048/090", decI048_090),
   ("I048/130", fun view off => parseFxChainRaw view off "I048/130"),
   ("I048/220", decI048_220),
   ("I048/240", decI048_240),
   ("I048/250", fun view off => parseFxChainRaw view off "I048/250"),
   ("I048/161", decI048_161),
   ("I048/042", decI048_042),
   ("I048/200", decI048_200),
   ("I048/170", fun view off => parseFxChainRaw view off "I048/170"),
   ("I048/030", fun view off => parseFxChainRaw view off "I048/030"),
   ("I048/080", fun view off => parseFxChainRaw view off "I048/080"),
   ("I048/100", fun view off => parseFxChainRaw view off "I048/100"),
   ("I048/110", fun view off => parseFxChainRaw view off "I048/110"),
   ("I048/120", fun view off => parseFxChainRaw view off "I048/120"),
   ("I048/140", decI048_140),
   ("I048/230", fun view off => parseFxChainRaw view off "I048/230"),
   ("I048/260", fun view off => parseFxChainRaw view off "I048/260"),
   ("I048/055", fun view off => parseFxChainRaw view off "I048/055"),
   ("I048/065", fun view off => parseFxChainRaw view off "I048/065"),
   ("I048/071", fun view off => parseFxChainRaw view off "I048/071"),
   ("I048/072", fun view off => parseFxChainRaw view off "I048/072"),
   ("I048/073", fun view off => parseFxChainRaw view off "I048/073"),
   ("I048/075", fun view off => parseFxChainRaw view off "I048/075")]

/-- `DECODERS` — per-category decoder tables. -/
def DECODERS : List (Nat × List (String × Decoder)) := [(34, dec34map), (48, dec48map)]

/-- The FSPEC-bit walk of `parseRecord` (the `for` loop over `fsBits`):
state is the bit list still to do, the bit index `i`, the cursor, and the
accumulated `items` and `rawItems`; every stop condition appends its
diagnostic and returns (`break`).  On overflow the cursor is clamped to
`end_` exactly as the source sets `cur = end`. -/
def walkItems (view : List Byte) (decMap : List (String × Decoder)) (uap : List String)
    (end_ : Nat) :
    List Nat → Nat → Nat → List (String × Val) → List (String × Val) →
    List (String × Val) × List (String × Val) × Nat
  | [], _i, cur, items, raws => (items, raws, cur)
  | bit :: rest, i, cur, items, raws =>
    if bit = 1 then
      match uap[i]? with
      | none => (items, raws ++ [("_excessFSPECBit", .scalar (.sbool true))], cur)
      | some itemId =>
        match decMap.lookup itemId with
        | none =>
          (items,
           raws ++ [(itemId, .obj [("note", .str "No decoder; parsing stopped to avoid misalignment.")])],
           cur)
        | some dec =>
          match dec view cur with
          | .error msg =>
            (items, raws ++ [("_errorItem", .obj [("itemId", .str itemId), ("error", .str msg)])], cur)
          | .ok (value, length) =>
            if end_ < cur + length then
              (items ++ [(itemId, value)],
               raws ++ [("_overflowItem", .scalar (.str itemId))], end_)
            else
              walkItems view decMap uap end_ rest (i + 1) (cur + length)
                (items ++ [(itemId, value)]) raws
    else walkItems view decMap uap end_ rest (i + 1) cur items raws

/-- `parseRecord(view, offset)`: one record plus the next offset; thrown
fatal errors are `Except.error` with the source's message. -/
def parseRecord (view : List Byte) (offset : Nat) : Except String (Rec × Nat) :=
  if view.length < offset + 3 then .error "Truncated header"
  else
    let cat := jsByte view offset
    let len := (readU16BE view (offset + 1)).toNat
    let end_ := offset + len
    if view.length < end_ then .error "Truncated record body"
    else
      match parseFSPEC view (offset + 3) with
      | none => .error "Truncated FSPEC"
      | some (fsBytes, diStart, fsBits) =>
        match CATEGORY_DEFS cat with
        | none =>
          .ok (⟨cat, len, hexStr fsBytes, [],
            [("_unknownCategoryPayload", .scalar (.str (toHex view diStart (end_ - diStart))))]⟩,
            end_)
        | some uap =>
          let decMap := (DECODERS.lookup cat).getD []
          match walkItems view decMap uap end_ fsBits 0 diStart [] [] with
          | (items, raws, cur) =>
            let raws2 :=
              if cur < end_ then raws ++ [("_tail", .scalar (.str (toHex view cur (end_ - cur))))]
              else raws
            .ok (⟨cat, len, hexStr fsBytes, items, raws2⟩, end_)

/-- `parseAsterixStream(buffer)`: the generator loop, indexed by fuel.
`none` means the fuel ran out with the loop still running — the unfuelled
source loop would still be iterating (it only stops when the offset reaches
the length or a parse throws). -/
def parseAsterixStream (view : List Byte) : Nat → Nat → Option (Except String (List Rec))
  | 0, off => if off < view.length then none else some (.ok [])
  | fuel + 1, off =>
    if off < view.length then
      match parseRecord view off with
      | .error e => some (.error e)
      | .ok (r, nextOffset) =>
        (parseAsterixStream view fuel nextOffset).map (fun res => res.map (fun rs => r :: rs))
    else some (.ok [])

/-- The item identifier named by a `_errorItem` decode-error diagnostic. -/
def errItemName (raws : List (String × Val)) : Option String :=
  match raws.lookup "_errorItem" with
  | some (.obj fields) =>
    match fields.lookup "itemId" with
    | some (.str s) => some s
    | _ => none
  | _ => none

/-- The item identifier named by a `_overflowItem` diagnostic. -/
def overflowItemName (raws : List (String × Val)) : Option String :=
  match raws.lookup "_overflowItem" with
  | some (.scalar (.str s)) => some s
  | _ => none

/-- A decoder makes strict forward progress and stays inside the buffer
whenever it succeeds. -/
def DecoderOk (d : Decoder) : Prop :=
  ∀ view off v len, d view off = .ok (v, len) → 1 ≤ len ∧ off + len ≤ view.length

/-- A decoder's behaviour at offset `p.length + off` of `p ++ rest` matches
its behaviour at `off` of `rest`: decoding only depends on the bytes from the
cursor on and on the remaining length. -/
def ShiftOk (d : Decoder) : Prop :=
  ∀ p rest off, d (p ++ rest) (p.length + off) = d rest off

/-! ### Helper lemmas -/

/-- `Fin.val` of a numeric literal in `Fin 256`, as a simp-usable equation. -/
theorem fin256_val_ofNat (k : Nat) :
    (no_index (OfNat.ofNat k) : Fin 256).val = OfNat.ofNat k % 256 := rfl

/-! ### C1 — concrete CAT048 record with Data Source Identifier and Polar Position -/

/-- Claim C1: for the one-record buffer with category 48, 3-byte header
declaring length 10, FSPEC byte `0xA0`, Data Source Identifier `0x12 0x34`
and Polar Position RHO=2560, THETA=16384, `parseRecord` returns a record with
`sac = 0x12`, `sic = 0x34` under "I048/010", `range_nm = 10` and
`bearing_deg = 90` under "I048/040", and the next offset equals the buffer
length. -/
theorem claim1_cat48_polar_example :
    parseRecord [48, 0, 10, 0xA0, 0x12, 0x34, 0x0A, 0x00, 0x40, 0x00] 0 =
      .ok (⟨48, 10, "a0",
        [("I048/010", .obj [("sac", .num 18), ("sic", .num 52)]),
         ("I048/040", .obj [("rho_raw", .num 2560), ("theta_raw", .num 16384),
                            ("range_nm", .num 10), ("bearing_deg", .num 90)])],
        []⟩,
        ([48, 0, 10, 0xA0, 0x12, 0x34, 0x0A, 0x00, 0x40, 0x00] : List Byte).length) := by
  simp +decide [parseRecord, parseFSPEC, fxOctets, bitsOf, byteBits, walkItems, CATEGORY_DEFS,
    DECODERS, dec48map, dec34map, decI048_010, decI048_040, readU16BE, jsOr, jsShl, jsAnd,
    toInt32, toUint32, jsByte, hexStr, hexByte, hexDigit, toHex, uap48, uap34, List.lookup,
    fin256_val_ofNat]
  norm_num

/-! ### C9 — `readU32BE` wraps to a negative Int32 when the top bit is set -/

/-- Claim C9 (refuting evaluation): `readU32BE` on bytes `80 00 00 00` returns
`-2147483648`, not the unsigned value `2147483648` the claim requires — the
JS `|` coerces the result to a signed 32-bit integer. -/
theorem claim9_readU32BE_msb_set_negative : readU32BE [128, 0, 0, 0] 0 = -2147483648 := rfl

/-! ### C3 — the stream decoder diverges on a declared length of 0 -/

/-- Claim C3 (refuting theorem): on the buffer `30 00 00 00` (category 48,
declared length 0), the record's next offset equals its own offset, so the
stream loop makes no progress: no amount of fuel completes the stream — the
source generator loops forever instead of terminating. -/
theorem claim3_zero_length_stream_diverges :
    ∀ fuel, parseAsterixStream [48, 0, 0, 0] fuel 0 = none := by
  intro fuel
  induction fuel with
  | zero => rfl
  | succ n ih =>
    have step : parseAsterixStream [48, 0, 0, 0] (n + 1) 0 =
        (parseAsterixStream [48, 0, 0, 0] n 0).map
          (fun res => res.map (fun rs => ⟨48, 0, "00", [], []⟩ :: rs)) := rfl
    rw [step, ih]
    rfl

/-! ### C8 — the byte primitives have no bounds check -/

/-- Claim C8 (counterexample): each primitive read returns a value even when
its span extends past the end of the buffer — `readU16BE` on a 1-byte buffer
returns `0x1200` (the missing byte is read as 0), and all the primitives
return 0 on an empty buffer instead of failing with a bounds error. -/
theorem claim8_counterexample :
    readU16BE [18] 0 = 4608 ∧ readU24BE [] 0 = 0 ∧ readU32BE [] 0 = 0 ∧
    readI16BE [] 0 = 0 ∧ readI32BE [] 0 = 0 :=
  ⟨rfl, rfl, rfl, rfl, rfl⟩

/-! ### C2 — overflow diagnostic names an item that is also in `items` -/

/-- Claim C2 (counterexample): on the buffer `30 00 05 80 12 34` (declared
length 5 but a 2-byte item at offset 4), "I048/010" is stored with its decoded
value in `items` and is also named by the `_overflowItem` diagnostic. -/
theorem claim2_counterexample :
    (parseRecord [48, 0, 5, 0x80, 0x12, 0x34] 0).toOption.map
        (fun p => ((p.1.items.lookup "I048/010").isSome, overflowItemName p.1.rawItems)) =
      some (true, some "I048/010") := rfl

/-! ### C4 — concatenation changes the first record's decode -/

/-- Claim C4 (counterexample): `30 00 05 04 03` alone decodes to one record
whose I048/130 FX-chain hits the end of the buffer (decode-error diagnostic,
tail kept raw); `30 00 04 00` alone decodes to one clean record.  Decoding the
concatenation yields two records, but the first one now decodes I048/130
successfully by reading into the second record's bytes (raw "0330", overflow
diagnostic) — it is not field-for-field identical to the standalone decode. -/
theorem claim4_counterexample :
    parseAsterixStream [48, 0, 5, 4, 3] 1 0 =
      some (.ok [⟨48, 5, "04", [],
        [("_errorItem", .obj [("itemId", .str "I048/130"), ("error", .str "Truncated I048/130")]),
         ("_tail", .scalar (.str "03"))]⟩]) ∧
    parseAsterixStream [48, 0, 4, 0] 1 0 =
      some (.ok [⟨48, 4, "00", [], []⟩]) ∧
    parseAsterixStream ([48, 0, 5, 4, 3] ++ [48, 0, 4, 0]) 2 0 =
      some (.ok [⟨48, 5, "04", [("I048/130", .obj [("raw", .str "0330")])],
        [("_overflowItem", .scalar (.str "I048/130"))]⟩,
        ⟨48, 4, "00", [], []⟩]) ∧
    (⟨48, 5, "04", [("I048/130", .obj [("raw", .str "0330")])],
      [("_overflowItem", .scalar (.str "I048/130"))]⟩ : Rec) ≠
      ⟨48, 5, "04", [],
        [("_errorItem", .obj [("itemId", .str "I048/130"), ("error", .str "Truncated I048/130")]),
         ("_tail", .scalar (.str "03"))]⟩ :=
  ⟨rfl, rfl, rfl, by decide⟩

/-! ### C5 — truncated record body fails before any item decoding -/

/-- Claim C5: whenever at least 3 header bytes are available but the declared
length makes the record end exceed the buffer length, `parseRecord` fails with
the `Truncated record body` error — the error is raised before the FSPEC parse
and the item walk, so no decoder is invoked and no items are produced. -/
theorem claim5_truncated_body (view : List Byte) (offset : Nat)
    (h3 : offset + 3 ≤ view.length)
    (hlen : view.length < offset + (readU16BE view (offset + 1)).toNat) :
    parseRecord view offset = .error "Truncated record body" := by
  simp only [parseRecord]
  rw [if_neg (by omega), if_pos hlen]

/-- Witness for C5 at the concrete buffer `30 FF FF 00` (declared length
65535, buffer length 4). -/
theorem claim5_witness :
    0 + 3 ≤ ([48, 255, 255, 0] : List Byte).length ∧
    ([48, 255, 255, 0] : List Byte).length <
      0 + (readU16BE [48, 255, 255, 0] (0 + 1)).toNat ∧
    parseRecord [48, 255, 255, 0] 0 = .error "Truncated record body" :=
  ⟨by decide, by decide, claim5_truncated_body [48, 255, 255, 0] 0 (by decide) (by decide)⟩

/-! ### C6 — unknown category keeps the whole payload as one raw-hex diagnostic -/

/-- Claim C6: for a record whose category is not registered and whose FSPEC
parses, `parseRecord` returns a record with empty `items`, a single
`_unknownCategoryPayload` diagnostic equal to the hex of the bytes from the
end of the FSPEC up to the declared end, and reports the declared end as the
next offset; no item walk is attempted. -/
theorem claim6_unknown_category (view : List Byte) (offset : Nat) (bs : List Byte)
    (h3 : offset + 3 ≤ view.length)
    (hend : offset + (readU16BE view (offset + 1)).toNat ≤ view.length)
    (hfs : fxOctets (view.drop (offset + 3)) = some bs)
    (hcat : CATEGORY_DEFS (jsByte view offset) = none) :
    parseRecord view offset =
      .ok (⟨jsByte view offset, (readU16BE view (offset + 1)).toNat, hexStr bs, [],
        [("_unknownCategoryPayload", .scalar (.str
          (toHex view (offset + 3 + bs.length)
            (offset + (readU16BE view (offset + 1)).toNat - (offset + 3 + bs.length)))))]⟩,
        offset + (readU16BE view (offset + 1)).toNat) := by
  simp only [parseRecord, parseFSPEC, hfs, Option.map_some', hcat]
  rw [if_neg (by omega), if_neg (by omega)]

/-- Witness for C6 at the buffer `07 00 06 00 AB CD` (category 7 is not
registered; the two trailing bytes come back as the raw-hex diagnostic
"abcd" and `items` is empty). -/
theorem claim6_witness :
    0 + 3 ≤ ([7, 0, 6, 0, 0xAB, 0xCD] : List Byte).length ∧
    0 + (readU16BE [7, 0, 6, 0, 0xAB, 0xCD] (0 + 1)).toNat ≤
      ([7, 0, 6, 0, 0xAB, 0xCD] : List Byte).length ∧
    fxOctets (([7, 0, 6, 0, 0xAB, 0xCD] : List Byte).drop (0 + 3)) = some [0] ∧
    CATEGORY_DEFS (jsByte [7, 0, 6, 0, 0xAB, 0xCD] 0) = none ∧
    parseRecord [7, 0, 6, 0, 0xAB, 0xCD] 0 =
      .ok (⟨7, 6, "00", [], [("_unknownCategoryPayload", .scalar (.str "abcd"))]⟩, 6) :=
  ⟨by decide, by decide, by decide, by decide,
    claim6_unknown_category [7, 0, 6, 0, 0xAB, 0xCD] 0 [0]
      (by decide) (by decide) (by decide) (by decide)⟩

/-! ### C7 — an excess FSPEC bit stops the walk with no items and no tail -/

/-- The item walk when every set FSPEC bit lies at or beyond the UAP length
and at least one bit is set: the walk stops at the first set bit with the
excess-bit diagnostic, leaving items and cursor untouched. -/
theorem walk_excess (view : List Byte) (decMap : List (String × Decoder)) (uap : List String)
    (end_ : Nat) :
    ∀ bits i cur items raws,
      (∀ j, bits[j]? = some 1 → uap.length ≤ i + j) →
      1 ∈ bits →
      walkItems view decMap uap end_ bits i cur items raws =
        (items, raws ++ [("_excessFSPECBit", .scalar (.sbool true))], cur) := by
  intro bits
  induction bits with
  | nil => intro i cur items raws _ hone; simp at hone
  | cons b rest ih =>
    intro i cur items raws hb hone
    by_cases h1 : b = 1
    · subst h1
      have hlen : uap.length ≤ i := by
        have := hb 0 (by simp)
        omega
      have huap : uap[i]? = none := List.getElem?_eq_none hlen
      simp [walkItems, huap]
    · rw [List.mem_cons] at hone
      have hone2 : 1 ∈ rest := by
        rcases hone with h | h
        · exact absurd h.symm h1
        · exact h
      simp only [walkItems, if_neg h1]
      exact ih (i + 1) cur items raws
        (fun j hj => by
          have := hb (j + 1) (by simpa using hj)
          omega)
        hone2

/-- Claim C7: for a registered category, when every set FSPEC bit lies at or
beyond the UAP length (and at least one is set), the walk stops with the
`_excessFSPECBit` diagnostic and `items` stays empty — for every data region;
the `_tail` diagnostic appears exactly when the data region is nonempty, so in
particular an empty data region produces no `_tail`. -/
theorem claim7_excess_bit (view : List Byte) (offset : Nat) (bs : List Byte) (uap : List String)
    (h3 : offset + 3 ≤ view.length)
    (hend : offset + (readU16BE view (offset + 1)).toNat ≤ view.length)
    (hfs : fxOctets (view.drop (offset + 3)) = some bs)
    (hcat : CATEGORY_DEFS (jsByte view offset) = some uap)
    (hbits : ∀ j < uap.length, (bitsOf bs)[j]? ≠ some 1)
    (hone : 1 ∈ bitsOf bs) :
    parseRecord view offset =
      .ok (⟨jsByte view offset, (readU16BE view (offset + 1)).toNat, hexStr bs, [],
        if offset + 3 + bs.length < offset + (readU16BE view (offset + 1)).toNat then
          [("_excessFSPECBit", .scalar (.sbool true)),
           ("_tail", .scalar (.str (toHex view (offset + 3 + bs.length)
             (offset + (readU16BE view (offset + 1)).toNat - (offset + 3 + bs.length)))))]
        else [("_excessFSPECBit", .scalar (.sbool true))]⟩,
        offset + (readU16BE view (offset + 1)).toNat) := by
  simp only [parseRecord, parseFSPEC, hfs, Option.map_some', hcat]
  rw [if_neg (by omega), if_neg (by omega)]
  rw [walk_excess view _ uap _ (bitsOf bs) 0 (offset + 3 + bs.length) [] []
      (fun j hj => by
        by_cases hlt : j < uap.length
        · exact absurd hj (hbits j hlt)
        · omega)
      hone]
  by_cases ht : offset + 3 + bs.length < offset + (readU16BE view (offset + 1)).toNat
  · rw [if_pos ht, if_pos ht]
    rfl
  · rw [if_neg ht, if_neg ht]
    rfl

/-- Witness for C7: category 48, FSPEC `01 01 01 01 02` (four continuation
bytes with no data bits, then bit 34 set with FX=0) against the 27-entry
CAT048 UAP, with a nonempty data region of one byte `FF`: items stay empty,
the excess-bit diagnostic is set, and the tail diagnostic is the hex of the
leftover byte. -/
theorem claim7_witness :
    0 + 3 ≤ ([48, 0, 9, 1, 1, 1, 1, 2, 0xFF] : List Byte).length ∧
    0 + (readU16BE [48, 0, 9, 1, 1, 1, 1, 2, 0xFF] (0 + 1)).toNat ≤
      ([48, 0, 9, 1, 1, 1, 1, 2, 0xFF] : List Byte).length ∧
    fxOctets (([48, 0, 9, 1, 1, 1, 1, 2, 0xFF] : List Byte).drop (0 + 3)) =
      some [1, 1, 1, 1, 2] ∧
    CATEGORY_DEFS (jsByte [48, 0, 9, 1, 1, 1, 1, 2, 0xFF] 0) = some uap48 ∧
    (∀ j < uap48.length, (bitsOf [1, 1, 1, 1, 2])[j]? ≠ some 1) ∧
    1 ∈ bitsOf [1, 1, 1, 1, 2] ∧
    parseRecord [48, 0, 9, 1, 1, 1, 1, 2, 0xFF] 0 =
      .ok (⟨48, 9, "0101010102", [],
        [("_excessFSPECBit", .scalar (.sbool true)),
         ("_tail", .scalar (.str "ff"))]⟩, 9) :=
  ⟨by decide, by decide, by decide, by decide, by decide, by decide,
    claim7_excess_bit [48, 0, 9, 1, 1, 1, 1, 2, 0xFF] 0 [1, 1, 1, 1, 2] uap48
      (by decide) (by decide) (by decide) (by decide) (by decide) (by decide)⟩

theorem fxOctets_length_pos {l o : List Byte} (h : fxOctets l = some o) : 1 ≤ o.length := by
  induction l generalizing o with
  | nil => simp [fxOctets] at h
  | cons b rest ih =>
    simp only [fxOctets] at h
    split at h
    · cases h; simp
    · rcases Option.map_eq_some'.mp h with ⟨o2, _, rfl⟩
      simp

theorem fxOctets_length_le {l o : List Byte} (h : fxOctets l = some o) : o.length ≤ l.length := by
  induction l generalizing o with
  | nil => simp [fxOctets] at h
  | cons b rest ih =>
    simp only [fxOctets] at h
    split at h
    · cases h; simp
    · rcases Option.map_eq_some'.mp h with ⟨o2, h2, rfl⟩
      have := ih h2
      simp
      omega

theorem decOk_fixed (n : Nat) (hn : 0 < n) (msg : String) (g : List Byte → Nat → Val) :
    DecoderOk (fun view off => if view.length < off + n then .error msg else .ok (g view off, n)) := by
  intro view off v len h
  simp only at h
  split at h
  · exact absurd h (by simp)
  · rw [Except.ok.injEq, Prod.mk.injEq] at h
    obtain ⟨-, rfl⟩ := h
    omega

theorem decOk_fx (name : String) : DecoderOk (fun view off => parseFxChainRaw view off name) := by
  intro view off v len h
  simp only [parseFxChainRaw] at h
  split at h
  · exact absurd h (by simp)
  · rename_i octets hfx
    rw [Except.ok.injEq, Prod.mk.injEq] at h
    obtain ⟨-, rfl⟩ := h
    have h1 := fxOctets_length_pos hfx
    have h2 := fxOctets_length_le hfx
    rw [List.length_drop] at h2
    constructor
    · omega
    · omega

theorem decOk_lenfx (name : String) : DecoderOk (fun view off => parseLenPrefixedOrFx view off name) := by
  intro view off v len h
  simp only [parseLenPrefixedOrFx] at h
  split at h
  · rename_i rep hrep
    split at h
    · rw [Except.ok.injEq, Prod.mk.injEq] at h
      obtain ⟨-, rfl⟩ := h
      rename_i hfit
      omega
    · exact decOk_fx name view off v len h
  · exact decOk_fx name view off v len h

theorem decOk_I048_020 : DecoderOk decI048_020 := by
  intro view off v len h
  simp only [decI048_020] at h
  split at h
  · exact absurd h (by simp)
  · rename_i octets hfx
    rw [Except.ok.injEq, Prod.mk.injEq] at h
    obtain ⟨-, rfl⟩ := h
    have h1 := fxOctets_length_pos hfx
    have h2 := fxOctets_length_le hfx
    rw [List.length_drop] at h2
    exact ⟨by omega, by omega⟩

theorem decOk_I034_010 : DecoderOk decI034_010 := decOk_fixed 2 (by omega) _ _
theorem decOk_I034_000 : DecoderOk decI034_000 := decOk_fixed 1 (by omega) _ _
theorem decOk_I034_030 : DecoderOk decI034_030 := decOk_fixed 3 (by omega) _ _
theorem decOk_I034_020 : DecoderOk decI034_020 := decOk_fixed 1 (by omega) _ _
theorem decOk_I034_041 : DecoderOk decI034_041 := decOk_fixed 2 (by omega) _ _
theorem decOk_I034_100 : DecoderOk decI034_100 := decOk_fixed 8 (by omega) _ _
theorem decOk_I034_110 : DecoderOk decI034_110 := decOk_fixed 1 (by omega) _ _
theorem decOk_I034_120 : DecoderOk decI034_120 := decOk_fixed 8 (by omega) _ _
theorem decOk_I034_090 : DecoderOk decI034_090 := decOk_fixed 2 (by omega) _ _
theorem decOk_I048_010 : DecoderOk decI048_010 := decOk_fixed 2 (by omega) _ _
theorem decOk_I048_040 : DecoderOk decI048_040 := decOk_fixed 4 (by omega) _ _
theorem decOk_I048_070 : DecoderOk decI048_070 := decOk_fixed 2 (by omega) _ _
theorem decOk_I048_090 : DecoderOk decI048_090 := decOk_fixed 2 (by omega) _ _
theorem decOk_I048_220 : DecoderOk decI048_220 := decOk_fixed 4 (by omega) _ _
theorem decOk_I048_240 : DecoderOk decI048_240 := decOk_fixed 3 (by omega) _ _
theorem decOk_I048_161 : DecoderOk decI048_161 := decOk_fixed 2 (by omega) _ _
theorem decOk_I048_042 : DecoderOk decI048_042 := decOk_fixed 4 (by omega) _ _
theorem decOk_I048_200 : DecoderOk decI048_200 := decOk_fixed 4 (by omega) _ _
theorem decOk_I048_140 : DecoderOk decI048_140 := decOk_fixed 3 (by omega) _ _

theorem dec34_all_ok : ∀ p ∈ dec34map, DecoderOk p.2 := by
  intro p hp
  fin_cases hp <;>
    first
      | exact decOk_fx _
      | exact decOk_lenfx _
      | exact decOk_I034_010
      | exact decOk_I034_000
      | exact decOk_I034_030
      | exact decOk_I034_020
      | exact decOk_I034_041
      | exact decOk_I034_100
      | exact decOk_I034_110
      | exact decOk_I034_120
      | exact decOk_I034_090

theorem dec48_all_ok : ∀ p ∈ dec48map, DecoderOk p.2 := by
  intro p hp
  fin_cases hp <;>
    first
      | exact decOk_fx _
      | exact decOk_I048_020
      | exact decOk_I048_010
      | exact decOk_I048_040
      | exact decOk_I048_070
      | exact decOk_I048_090
      | exact decOk_I048_220
      | exact decOk_I048_240
      | exact decOk_I048_161
      | exact decOk_I048_042
      | exact decOk_I048_200
      | exact decOk_I048_140

/-! ### C10 — every registered decoder makes strict in-bounds progress -/

/-- Claim C10: for every decoder registered in `DECODERS`, every buffer and
every in-range cursor, a successful decode reports a consumed length of at
least 1 with `cursor + length` within the buffer. -/
theorem claim10_decoder_progress (cat : Nat) (dm : List (String × Decoder))
    (hdm : (cat, dm) ∈ DECODERS) (id : String) (d : Decoder) (hd : (id, d) ∈ dm)
    (view : List Byte) (off : Nat) (_hoff : off ≤ view.length)
    (v : Val) (len : Nat) (h : d view off = .ok (v, len)) :
    1 ≤ len ∧ off + len ≤ view.length := by
  have hdm2 : (cat = 34 ∧ dm = dec34map) ∨ (cat = 48 ∧ dm = dec48map) := by
    simpa [DECODERS, Prod.ext_iff] using hdm
  have hok : DecoderOk d := by
    rcases hdm2 with ⟨-, rfl⟩ | ⟨-, rfl⟩
    · exact dec34_all_ok (id, d) hd
    · exact dec48_all_ok (id, d) hd
  exact hok view off v len h

/-- Witness for C10: the I048/010 decoder on the 2-byte buffer `12 34`. -/
theorem claim10_witness :
    (48, dec48map) ∈ DECODERS ∧ ("I048/010", decI048_010) ∈ dec48map ∧
    (0 : Nat) ≤ ([18, 52] : List Byte).length ∧
    decI048_010 [18, 52] 0 = .ok (.obj [("sac", .num 18), ("sic", .num 52)], 2) ∧
    (1 ≤ 2 ∧ 0 + 2 ≤ ([18, 52] : List Byte).length) := by
  have hmem : (48, dec48map) ∈ DECODERS := by simp [DECODERS]
  have hmem2 : ("I048/010", decI048_010) ∈ dec48map := by simp [dec48map]
  have hdec : decI048_010 [18, 52] 0 = .ok (.obj [("sac", .num 18), ("sic", .num 52)], 2) := by
    simp +decide [decI048_010, jsByte, fin256_val_ofNat]
  exact ⟨hmem, hmem2, by omega, hdec,
    claim10_decoder_progress 48 dec48map hmem "I048/010" decI048_010 hmem2 [18, 52] 0
      (by omega) _ 2 hdec⟩

/-! ### C8 — characterization of the byte primitives (no bounds check) -/

theorem jsByte_lt (view : List Byte) (off : Nat) : jsByte view off < 256 := by
  unfold jsByte
  split
  · exact Fin.isLt _
  · omega

theorem toUint32_natCast (n : Nat) : toUint32 (n : Int) = n % 4294967296 := by
  unfold toUint32
  omega

theorem toInt32_natCast_small (n : Nat) (h : n < 2147483648) : toInt32 (n : Int) = n := by
  simp only [toInt32, toUint32]
  omega

theorem toUint32_toInt32 (m : Nat) : toUint32 (toInt32 (m : Int)) = m % 4294967296 := by
  simp only [toInt32, toUint32]
  split <;> omega

theorem toInt32_natCast_ne_zero (m : Nat) (hm : m < 4294967296) :
    (toInt32 (m : Int) ≠ 0) ↔ m ≠ 0 := by
  simp only [toInt32, toUint32]
  split <;> omega

/-- Or-ing disjoint bit ranges is addition. -/
theorem lor_eq_add_of_mod (x y k : Nat) (hx : x % 2 ^ k = 0) (hy : y < 2 ^ k) :
    x ||| y = x + y := by
  obtain ⟨a, rfl⟩ := Nat.dvd_of_mod_eq_zero hx
  rw [← Nat.mul_add_lt_is_or hy a]

theorem jsOr_nat (x y : Nat) (hx : x < 4294967296) (hy : y < 4294967296) :
    jsOr (x : Int) (y : Int) = toInt32 ((x ||| y : Nat) : Int) := by
  unfold jsOr
  rw [toUint32_natCast, toUint32_natCast, Nat.mod_eq_of_lt hx, Nat.mod_eq_of_lt hy]

theorem jsOr_toInt32_nat (m y : Nat) (hm : m < 4294967296) (hy : y < 4294967296) :
    jsOr (toInt32 (m : Int)) (y : Int) = toInt32 ((m ||| y : Nat) : Int) := by
  unfold jsOr
  rw [toUint32_toInt32, toUint32_natCast, Nat.mod_eq_of_lt hm, Nat.mod_eq_of_lt hy]

theorem jsShl_nat (x : Nat) (k : Nat) (hx : x < 4294967296) (h : x <<< k < 2147483648) :
    jsShl (x : Int) k = ((x <<< k : Nat) : Int) := by
  unfold jsShl
  rw [toUint32_natCast, Nat.mod_eq_of_lt hx]
  exact toInt32_natCast_small _ h

/-- The top bit of a value below `2^(k+1)` is set exactly when `2^k ≤ V`. -/
theorem and_top_bit (V k : Nat) (hV : V < 2 ^ (k + 1)) :
    (V &&& 2 ^ k ≠ 0) ↔ 2 ^ k ≤ V := by
  rw [Nat.and_two_pow, Nat.testBit_to_div_mod]
  rcases Nat.lt_or_ge V (2 ^ k) with h | h
  · rw [Nat.div_eq_of_lt h]
    simp
    omega
  · have h2 : V / 2 ^ k = 1 := by
      apply Nat.div_eq_of_lt_le
      · simpa using h
      · rw [show 2 * 2 ^ k = 2 ^ (k + 1) from by ring]
        exact hV
    rw [h2]
    simp
    omega

theorem jsAnd_top_bit (V k : Nat) (hk : k ≤ 31) (hV : V < 2 ^ (k + 1)) :
    (jsAnd (V : Int) ((2 ^ k : Nat) : Int) ≠ 0) ↔ 2 ^ k ≤ V := by
  have hpow : (2 : Nat) ^ k ≤ 2 ^ 31 := Nat.pow_le_pow_right (by omega) hk
  have hpow31 : (2 : Nat) ^ 31 = 2147483648 := by norm_num
  unfold jsAnd
  rw [toUint32_natCast, toUint32_natCast]
  rw [Nat.mod_eq_of_lt (by
      have h1 : (2 : Nat) ^ (k + 1) ≤ 2 ^ 32 := Nat.pow_le_pow_right (by omega) (by omega)
      have h2 : (2 : Nat) ^ 32 = 4294967296 := by norm_num
      omega),
    Nat.mod_eq_of_lt (by omega)]
  rw [toInt32_natCast_ne_zero _ (by
    have hle : V &&& 2 ^ k ≤ 2 ^ k := Nat.and_le_right
    omega)]
  exact and_top_bit V k hV

/-- `readU16BE` returns the big-endian value with missing bytes read as 0. -/
theorem readU16BE_eq (view : List Byte) (off : Nat) :
    readU16BE view off = ((256 * jsByte view off + jsByte view (off + 1) : Nat) : Int) := by
  have hb0 := jsByte_lt view off
  have hb1 := jsByte_lt view (off + 1)
  have e0 : jsShl (jsByte view off : Int) 8 = ((jsByte view off * 2 ^ 8 : Nat) : Int) := by
    rw [jsShl_nat _ 8 (by omega) (by rw [Nat.shiftLeft_eq]; omega), Nat.shiftLeft_eq]
  have e1 : jsByte view off * 2 ^ 8 ||| jsByte view (off + 1) =
      jsByte view off * 2 ^ 8 + jsByte view (off + 1) :=
    lor_eq_add_of_mod _ _ 8 (by omega) (by omega)
  have e2 : toInt32 ((jsByte view off * 2 ^ 8 + jsByte view (off + 1) : Nat) : Int) =
      ((jsByte view off * 2 ^ 8 + jsByte view (off + 1) : Nat) : Int) :=
    toInt32_natCast_small _ (by omega)
  unfold readU16BE
  rw [e0, jsOr_nat _ _ (by omega) (by omega), e1, e2]
  omega

/-- `readU24BE` returns the big-endian value with missing bytes read as 0. -/
theorem readU24BE_eq (view : List Byte) (off : Nat) :
    readU24BE view off =
      ((65536 * jsByte view off + 256 * jsByte view (off + 1) + jsByte view (off + 2) : Nat) :
        Int) := by
  have hb0 := jsByte_lt view off
  have hb1 := jsByte_lt view (off + 1)
  have hb2 := jsByte_lt view (off + 2)
  have e0 : jsShl (jsByte view off : Int) 16 = ((jsByte view off * 2 ^ 16 : Nat) : Int) := by
    rw [jsShl_nat _ 16 (by omega) (by rw [Nat.shiftLeft_eq]; omega), Nat.shiftLeft_eq]
  have e1 : jsShl (jsByte view (off + 1) : Int) 8 =
      ((jsByte view (off + 1) * 2 ^ 8 : Nat) : Int) := by
    rw [jsShl_nat _ 8 (by omega) (by rw [Nat.shiftLeft_eq]; omega), Nat.shiftLeft_eq]
  have e2 : jsByte view off * 2 ^ 16 ||| jsByte view (off + 1) * 2 ^ 8 =
      jsByte view off * 2 ^ 16 + jsByte view (off + 1) * 2 ^ 8 :=
    lor_eq_add_of_mod _ _ 16 (by omega) (by omega)
  have e3 : (jsByte view off * 2 ^ 16 + jsByte view (off + 1) * 2 ^ 8) ||| jsByte view (off + 2) =
      jsByte view off * 2 ^ 16 + jsByte view (off + 1) * 2 ^ 8 + jsByte view (off + 2) :=
    lor_eq_add_of_mod _ _ 8 (by omega) (by omega)
  have e4 : toInt32 ((jsByte view off * 2 ^ 16 + jsByte view (off + 1) * 2 ^ 8 +
        jsByte view (off + 2) : Nat) : Int) =
      ((jsByte view off * 2 ^ 16 + jsByte view (off + 1) * 2 ^ 8 +
        jsByte view (off + 2) : Nat) : Int) :=
    toInt32_natCast_small _ (by omega)
  unfold readU24BE
  rw [e0, e1, jsOr_nat _ _ (by omega) (by omega), e2,
    jsOr_toInt32_nat _ _ (by omega) (by omega), e3, e4]
  omega

/-- `readU32BE` computes the 32-bit big-endian value but reinterprets it as a
signed Int32 (this is the wrap C9 exhibits). -/
theorem readU32BE_eq (view : List Byte) (off : Nat) :
    readU32BE view off =
      toInt32 ((16777216 * jsByte view off + 65536 * jsByte view (off + 1) +
        256 * jsByte view (off + 2) + jsByte view (off + 3) : Nat) : Int) := by
  have hb0 := jsByte_lt view off
  have hb1 := jsByte_lt view (off + 1)
  have hb2 := jsByte_lt view (off + 2)
  have hb3 := jsByte_lt view (off + 3)
  have em : (jsByte view off : Int) * 16777216 = ((jsByte view off * 2 ^ 24 : Nat) : Int) := by
    push_cast
    ring
  have e1 : jsShl (jsByte view (off + 1) : Int) 16 =
      ((jsByte view (off + 1) * 2 ^ 16 : Nat) : Int) := by
    rw [jsShl_nat _ 16 (by omega) (by rw [Nat.shiftLeft_eq]; omega), Nat.shiftLeft_eq]
  have e2 : jsShl (jsByte view (off + 2) : Int) 8 =
      ((jsByte view (off + 2) * 2 ^ 8 : Nat) : Int) := by
    rw [jsShl_nat _ 8 (by omega) (by rw [Nat.shiftLeft_eq]; omega), Nat.shiftLeft_eq]
  have f1 : jsByte view off * 2 ^ 24 ||| jsByte view (off + 1) * 2 ^ 16 =
      jsByte view off * 2 ^ 24 + jsByte view (off + 1) * 2 ^ 16 :=
    lor_eq_add_of_mod _ _ 24 (by omega) (by omega)
  have f2 : (jsByte view off * 2 ^ 24 + jsByte view (off + 1) * 2 ^ 16) |||
        jsByte view (off + 2) * 2 ^ 8 =
      jsByte view off * 2 ^ 24 + jsByte view (off + 1) * 2 ^ 16 +
        jsByte view (off + 2) * 2 ^ 8 :=
    lor_eq_add_of_mod _ _ 16 (by omega) (by omega)
  have f3 : (jsByte view off * 2 ^ 24 + jsByte view (off + 1) * 2 ^ 16 +
        jsByte view (off + 2) * 2 ^ 8) ||| jsByte view (off + 3) =
      jsByte view off * 2 ^ 24 + jsByte view (off + 1) * 2 ^ 16 +
        jsByte view (off + 2) * 2 ^ 8 + jsByte view (off + 3) :=
    lor_eq_add_of_mod _ _ 8 (by omega) (by omega)
  have efin : jsByte view off * 2 ^ 24 + jsByte view (off + 1) * 2 ^ 16 +
        jsByte view (off + 2) * 2 ^ 8 + jsByte view (off + 3) =
      16777216 * jsByte view off + 65536 * jsByte view (off + 1) +
        256 * jsByte view (off + 2) + jsByte view (off + 3) := by
    omega
  unfold readU32BE
  rw [em, e1, e2, jsOr_nat _ _ (by omega) (by omega), f1,
    jsOr_toInt32_nat _ _ (by omega) (by omega), f2,
    jsOr_toInt32_nat _ _ (by omega) (by omega), f3, efin]

/-- `readI16BE` is the two's-complement reinterpretation of the 16-bit value
(with missing bytes read as 0). -/
theorem readI16BE_eq (view : List Byte) (off : Nat) :
    readI16BE view off =
      (if 32768 ≤ 256 * jsByte view off + jsByte view (off + 1) then
        ((256 * jsByte view off + jsByte view (off + 1) : Nat) : Int) - 65536
      else ((256 * jsByte view off + jsByte view (off + 1) : Nat) : Int)) := by
  have hb0 := jsByte_lt view off
  have hb1 := jsByte_lt view (off + 1)
  simp only [readI16BE, readU16BE_eq]
  rw [show (32768 : Int) = ((2 ^ 15 : Nat) : Int) from by norm_num]
  have hcond := jsAnd_top_bit (256 * jsByte view off + jsByte view (off + 1)) 15
    (by omega) (by omega)
  rcases Nat.lt_or_ge (256 * jsByte view off + jsByte view (off + 1)) 32768 with h | h
  · rw [if_neg (by rw [hcond]; omega), if_neg (by omega)]
  · rw [if_pos (by rw [hcond]; omega), if_pos (by omega)]

/-- `readI32BE` is the two's-complement reinterpretation of the 32-bit value
(with missing bytes read as 0); the `>>> 0` undoes the Int32 wrap of
`readU32BE` before the sign test. -/
theorem readI32BE_eq (view : List Byte) (off : Nat) :
    readI32BE view off =
      (if 2147483648 ≤ 16777216 * jsByte view off + 65536 * jsByte view (off + 1) +
          256 * jsByte view (off + 2) + jsByte view (off + 3) then
        ((16777216 * jsByte view off + 65536 * jsByte view (off + 1) +
          256 * jsByte view (off + 2) + jsByte view (off + 3) : Nat) : Int) - 4294967296
      else ((16777216 * jsByte view off + 65536 * jsByte view (off + 1) +
          256 * jsByte view (off + 2) + jsByte view (off + 3) : Nat) : Int)) := by
  have hb0 := jsByte_lt view off
  have hb1 := jsByte_lt view (off + 1)
  have hb2 := jsByte_lt view (off + 2)
  have hb3 := jsByte_lt view (off + 3)
  simp only [readI32BE, readU32BE_eq]
  rw [toUint32_toInt32, Nat.mod_eq_of_lt (by omega)]
  rw [show (2147483648 : Int) = ((2 ^ 31 : Nat) : Int) from by norm_num]
  have hcond := jsAnd_top_bit (16777216 * jsByte view off + 65536 * jsByte view (off + 1) +
      256 * jsByte view (off + 2) + jsByte view (off + 3)) 31 (by omega) (by omega)
  rcases Nat.lt_or_ge (16777216 * jsByte view off + 65536 * jsByte view (off + 1) +
      256 * jsByte view (off + 2) + jsByte view (off + 3)) 2147483648 with h | h
  · rw [if_neg (by rw [hcond]; omega), if_neg (by omega)]
  · rw [if_pos (by rw [hcond]; omega), if_pos (by omega)]

/-- Claim C8 (amended): the byte-primitive reads perform no bounds check —
for every buffer and offset they return a value computed with each missing
byte read as 0 (`jsByte` is 0 out of range): the unsigned 16/24-bit reads
return the exact big-endian value, the signed variants its two's-complement
reinterpretation, and the 32-bit read returns the value reinterpreted through
`toInt32`.  Bounds errors are raised by the item decoders instead. -/
theorem claim8_reads_total_missing_bytes_zero (view : List Byte) (off : Nat) :
    readU16BE view off = ((256 * jsByte view off + jsByte view (off + 1) : Nat) : Int) ∧
    readU24BE view off =
      ((65536 * jsByte view off + 256 * jsByte view (off + 1) + jsByte view (off + 2) : Nat) :
        Int) ∧
    readU32BE view off =
      toInt32 ((16777216 * jsByte view off + 65536 * jsByte view (off + 1) +
        256 * jsByte view (off + 2) + jsByte view (off + 3) : Nat) : Int) ∧
    readI16BE view off =
      (if 32768 ≤ 256 * jsByte view off + jsByte view (off + 1) then
        ((256 * jsByte view off + jsByte view (off + 1) : Nat) : Int) - 65536
      else ((256 * jsByte view off + jsByte view (off + 1) : Nat) : Int)) ∧
    readI32BE view off =
      (if 2147483648 ≤ 16777216 * jsByte view off + 65536 * jsByte view (off + 1) +
          256 * jsByte view (off + 2) + jsByte view (off + 3) then
        ((16777216 * jsByte view off + 65536 * jsByte view (off + 1) +
          256 * jsByte view (off + 2) + jsByte view (off + 3) : Nat) : Int) - 4294967296
      else ((16777216 * jsByte view off + 65536 * jsByte view (off + 1) +
          256 * jsByte view (off + 2) + jsByte view (off + 3) : Nat) : Int)) :=
  ⟨readU16BE_eq view off, readU24BE_eq view off, readU32BE_eq view off,
    readI16BE_eq view off, readI32BE_eq view off⟩

/-! ### C2 — `items` vs diagnostics disjointness (amended) -/

theorem lookup_append (k : String) (l1 l2 : List (String × Val)) :
    (l1 ++ l2).lookup k =
      (match l1.lookup k with | some v => some v | none => l2.lookup k) := by
  induction l1 with
  | nil => simp
  | cons a t ih =>
    rcases a with ⟨a1, a2⟩
    rw [List.cons_append, List.lookup_cons, List.lookup_cons]
    cases hka : (k == a1) <;> simp [ih]

theorem lookup_append_isSome (k : String) (l1 l2 : List (String × Val)) :
    ((l1 ++ l2).lookup k).isSome ↔ (l1.lookup k).isSome ∨ (l2.lookup k).isSome := by
  rw [lookup_append]
  cases l1.lookup k <;> simp

theorem lookup_singleton_ne (k a : String) (v : Val) (h : k ≠ a) :
    ([(a, v)] : List (String × Val)).lookup k = none := by
  rw [List.lookup_cons, show (k == a) = false from beq_eq_false_iff_ne.mpr h]
  rfl

theorem errItemName_append_tail (raws : List (String × Val)) (v : Val) :
    errItemName (raws ++ [("_tail", v)]) = errItemName raws := by
  unfold errItemName
  rw [lookup_append]
  cases h : raws.lookup "_errorItem" <;> simp [lookup_singleton_ne]

theorem nodup_getElem?_ne (l : List String) (h : l.Nodup) (i j : Nat) (hij : i ≠ j)
    (a b : String) (ha : l[i]? = some a) (hb : l[j]? = some b) : a ≠ b := by
  rw [List.getElem?_eq_some_iff] at ha hb
  obtain ⟨hi, rfl⟩ := ha
  obtain ⟨hj, rfl⟩ := hb
  intro hab
  exact hij (h.getElem_inj_iff.mp hab)

theorem lookup_singleton_isSome (k a : String) (v : Val) :
    (([(a, v)] : List (String × Val)).lookup k).isSome ↔ k = a := by
  rw [List.lookup_cons]
  cases h : (k == a)
  · simp
    intro hcon
    rw [hcon] at h
    simp at h
  · simp
    exact eq_of_beq h

/-- The item walk never produces a missing-decoder note or a decode-error
diagnostic naming an item that it also stored in `items`: the walk stops
before storing in those two branches, and the UAP lists have no duplicate
identifiers. -/
theorem walk_disjoint (view : List Byte) (decMap : List (String × Decoder)) (uap : List String)
    (end_ : Nat) (hnodup : uap.Nodup)
    (hkeys : ∀ s ∈ uap, s ≠ "_excessFSPECBit" ∧ s ≠ "_errorItem" ∧ s ≠ "_overflowItem" ∧
      s ≠ "_tail") :
    ∀ bits i cur items items2 raws2 cur2,
      (∀ id2, (items.lookup id2).isSome → ∃ j, j < i ∧ uap[j]? = some id2) →
      walkItems view decMap uap end_ bits i cur items [] = (items2, raws2, cur2) →
      ∀ id, (items2.lookup id).isSome →
        id ∈ uap ∧ raws2.lookup id = none ∧ errItemName raws2 ≠ some id := by
  intro bits
  induction bits with
  | nil =>
    intro i cur items items2 raws2 cur2 hin heq id hid
    simp only [walkItems] at heq
    injection heq with h1 h23
    injection h23 with h2 h3
    subst h1
    subst h2
    obtain ⟨j, -, hj⟩ := hin id hid
    exact ⟨List.getElem?_mem hj, rfl, by simp [errItemName]⟩
  | cons b rest ih =>
    intro i cur items items2 raws2 cur2 hin heq id hid
    simp only [walkItems] at heq
    by_cases hb : b = 1
    · subst hb
      rw [if_pos rfl] at heq
      rcases hu : uap[i]? with - | itemId
      · simp only [hu] at heq
        injection heq with h1 h23
        injection h23 with h2 h3
        subst h1
        subst h2
        obtain ⟨j, -, hj⟩ := hin id hid
        have hmem := List.getElem?_mem hj
        obtain ⟨k1, k2, k3, k4⟩ := hkeys id hmem
        exact ⟨hmem, lookup_singleton_ne id _ _ k1, by simp [errItemName, List.lookup_cons]⟩
      · have hmemItem := List.getElem?_mem hu
        obtain ⟨m1, m2, m3, m4⟩ := hkeys itemId hmemItem
        simp only [hu] at heq
        rcases hd : decMap.lookup itemId with - | dec
        · simp only [hd] at heq
          injection heq with h1 h23
          injection h23 with h2 h3
          subst h1
          subst h2
          obtain ⟨j, hji, hj⟩ := hin id hid
          have hmem := List.getElem?_mem hj
          have hne : id ≠ itemId := nodup_getElem?_ne uap hnodup j i (by omega) id itemId hj hu
          refine ⟨hmem, lookup_singleton_ne id itemId _ hne, ?_⟩
          have hnone : errItemName [(itemId,
              Val.obj [("note", .str "No decoder; parsing stopped to avoid misalignment.")])] =
              none := by
            unfold errItemName
            rw [lookup_singleton_ne _ itemId _ (Ne.symm m2)]
          rw [List.nil_append, hnone]
          simp
        · simp only [hd] at heq
          rcases hdec : dec view cur with msg | vl
          · simp only [hdec] at heq
            injection heq with h1 h23
            injection h23 with h2 h3
            subst h1
            subst h2
            obtain ⟨j, hji, hj⟩ := hin id hid
            have hmem := List.getElem?_mem hj
            have hne : id ≠ itemId := nodup_getElem?_ne uap hnodup j i (by omega) id itemId hj hu
            obtain ⟨k1, k2, k3, k4⟩ := hkeys id hmem
            refine ⟨hmem, lookup_singleton_ne id _ _ k2, ?_⟩
            have hsome : errItemName [("_errorItem",
                Val.obj [("itemId", .str itemId), ("error", .str msg)])] = some itemId := by
              simp [errItemName, List.lookup_cons]
            rw [List.nil_append, hsome]
            intro hcon
            exact hne (Option.some.inj hcon).symm
          · rcases vl with ⟨v, len⟩
            simp only [hdec] at heq
            by_cases hofl : end_ < cur + len
            · rw [if_pos hofl] at heq
              injection heq with h1 h23
              injection h23 with h2 h3
              subst h1
              subst h2
              have hmem : id ∈ uap := by
                rcases (lookup_append_isSome id items [(itemId, v)]).mp hid with hold | hnew
                · obtain ⟨j, -, hj⟩ := hin id hold
                  exact List.getElem?_mem hj
                · rw [lookup_singleton_isSome] at hnew
                  subst hnew
                  exact hmemItem
              obtain ⟨k1, k2, k3, k4⟩ := hkeys id hmem
              refine ⟨hmem, lookup_singleton_ne id _ _ k3, ?_⟩
              have hnone : errItemName [("_overflowItem", Val.scalar (.str itemId))] = none := by
                simp [errItemName, List.lookup_cons]
              rw [List.nil_append, hnone]
              simp
            · rw [if_neg hofl] at heq
              refine ih (i + 1) (cur + len) (items ++ [(itemId, v)]) items2 raws2 cur2
                (fun id2 h2 => ?_) heq id hid
              rcases (lookup_append_isSome id2 items [(itemId, v)]).mp h2 with hold | hnew
              · obtain ⟨j, hji, hj⟩ := hin id2 hold
                exact ⟨j, by omega, hj⟩
              · rw [lookup_singleton_isSome] at hnew
                subst hnew
                exact ⟨i, by omega, hu⟩
    · rw [if_neg hb] at heq
      refine ih (i + 1) cur items items2 raws2 cur2 (fun id2 h2 => ?_) heq id hid
      obtain ⟨j, hji, hj⟩ := hin id2 h2
      exact ⟨j, by omega, hj⟩

/-- Claim C2 (amended): after a successful `parseRecord`, an item identifier
present in `items` is never a key of `rawItems` (missing-decoder note) and is
never named by the `_errorItem` diagnostic.  The `_overflowItem` marker is
excluded: as the counterexample shows, it names an item that was also stored
in `items`, because the source stores the decoded value before checking the
declared end. -/
theorem claim2_items_disjoint_except_overflow (view : List Byte) (offset : Nat)
    (r : Rec) (nx : Nat) (id : String)
    (hok : parseRecord view offset = .ok (r, nx))
    (hid : (r.items.lookup id).isSome) :
    r.rawItems.lookup id = none ∧ errItemName r.rawItems ≠ some id := by
  simp only [parseRecord] at hok
  split at hok
  · exact absurd hok (by simp)
  split at hok
  · exact absurd hok (by simp)
  rcases hfs : parseFSPEC view (offset + 3) with - | ⟨bs, diStart, fsBits⟩
  · simp only [hfs] at hok
    exact absurd hok (by simp)
  · simp only [hfs] at hok
    rcases hcat : CATEGORY_DEFS (jsByte view offset) with - | uap
    · simp only [hcat] at hok
      injection hok with h1
      injection h1 with hr hnx
      subst hr
      simp at hid
    · simp only [hcat] at hok
      rcases hw : walkItems view ((DECODERS.lookup (jsByte view offset)).getD []) uap
          (offset + (readU16BE view (offset + 1)).toNat) fsBits 0 diStart [] [] with
        ⟨items2, rw2⟩
      rcases rw2 with ⟨raws2, cur2⟩
      rw [hw] at hok
      injection hok with h1
      injection h1 with hr hnx
      subst hr
      dsimp only at hid ⊢
      have huap2 : uap = uap34 ∨ uap = uap48 := by
        unfold CATEGORY_DEFS at hcat
        split at hcat
        · exact Or.inl (Option.some.inj hcat).symm
        · split at hcat
          · exact Or.inr (Option.some.inj hcat).symm
          · exact absurd hcat (by simp)
      have hnodup : uap.Nodup := by
        rcases huap2 with rfl | rfl <;> decide
      have hkeys : ∀ s ∈ uap, s ≠ "_excessFSPECBit" ∧ s ≠ "_errorItem" ∧ s ≠ "_overflowItem" ∧
          s ≠ "_tail" := by
        rcases huap2 with rfl | rfl <;> decide
      obtain ⟨hmem, hraw, herr⟩ :=
        walk_disjoint view ((DECODERS.lookup (jsByte view offset)).getD []) uap
          (offset + (readU16BE view (offset + 1)).toNat) hnodup hkeys fsBits 0 diStart []
          items2 raws2 cur2 (by simp) hw id hid
      by_cases ht : cur2 < offset + (readU16BE view (offset + 1)).toNat
      · rw [if_pos ht]
        constructor
        · rw [lookup_append, hraw]
          exact lookup_singleton_ne id "_tail" _ (hkeys id hmem).2.2.2
        · rw [errItemName_append_tail]
          exact herr
      · rw [if_neg ht]
        exact ⟨hraw, herr⟩

/-- Witness for C2 (amended) on a record with one FX-chained item and a raw
tail. -/
theorem claim2_witness :
    parseRecord [48, 0, 6, 0x04, 0x12, 0x34] 0 =
      .ok (⟨48, 6, "04", [("I048/130", .obj [("raw", .str "12")])],
        [("_tail", .scalar (.str "34"))]⟩, 6) ∧
    ((⟨48, 6, "04", [("I048/130", .obj [("raw", .str "12")])],
        [("_tail", .scalar (.str "34"))]⟩ : Rec).items.lookup "I048/130").isSome = true ∧
    (⟨48, 6, "04", [("I048/130", .obj [("raw", .str "12")])],
        [("_tail", .scalar (.str "34"))]⟩ : Rec).rawItems.lookup "I048/130" = none ∧
    errItemName (⟨48, 6, "04", [("I048/130", .obj [("raw", .str "12")])],
        [("_tail", .scalar (.str "34"))]⟩ : Rec).rawItems ≠ some "I048/130" :=
  ⟨rfl, rfl,
    claim2_items_disjoint_except_overflow [48, 0, 6, 0x04, 0x12, 0x34] 0
      ⟨48, 6, "04", [("I048/130", .obj [("raw", .str "12")])],
        [("_tail", .scalar (.str "34"))]⟩ 6 "I048/130" rfl rfl⟩

/-! ### C4 — decoding a suffix is translation invariant -/

theorem getElem?_shift (p rest : List Byte) (k : Nat) :
    (p ++ rest)[p.length + k]? = rest[k]? := by
  rw [List.getElem?_append_right (by omega)]
  congr 1
  omega

theorem jsByte_shift (p rest : List Byte) (k : Nat) :
    jsByte (p ++ rest) (p.length + k) = jsByte rest k := by
  unfold jsByte
  rw [getElem?_shift]

theorem drop_shift (p rest : List Byte) (k : Nat) :
    (p ++ rest).drop (p.length + k) = rest.drop k := by
  rw [← List.drop_drop, List.drop_left]

theorem toHex_shift (p rest : List Byte) (k n : Nat) :
    toHex (p ++ rest) (p.length + k) n = toHex rest k n := by
  unfold toHex
  rw [drop_shift]

theorem append_lt_shift (p rest : List Byte) (k : Nat) :
    ((p ++ rest).length < p.length + k) ↔ rest.length < k := by
  rw [List.length_append]
  omega

theorem append_le_shift (p rest : List Byte) (k : Nat) :
    (p.length + k ≤ (p ++ rest).length) ↔ k ≤ rest.length := by
  rw [List.length_append]
  omega

theorem readU16BE_shift (p rest : List Byte) (off : Nat) :
    readU16BE (p ++ rest) (p.length + off) = readU16BE rest off := by
  unfold readU16BE
  rw [show p.length + off + 1 = p.length + (off + 1) from by omega]
  rw [jsByte_shift, jsByte_shift]

theorem readI16BE_shift (p rest : List Byte) (off : Nat) :
    readI16BE (p ++ rest) (p.length + off) = readI16BE rest off := by
  simp only [readI16BE, readU16BE_shift]

theorem readU24BE_shift (p rest : List Byte) (off : Nat) :
    readU24BE (p ++ rest) (p.length + off) = readU24BE rest off := by
  unfold readU24BE
  rw [show p.length + off + 1 = p.length + (off + 1) from by omega,
    show p.length + off + 2 = p.length + (off + 2) from by omega]
  rw [jsByte_shift, jsByte_shift, jsByte_shift]

theorem parseFxChainRaw_shift (p rest : List Byte) (off : Nat) (name : String) :
    parseFxChainRaw (p ++ rest) (p.length + off) name = parseFxChainRaw rest off name := by
  unfold parseFxChainRaw
  rw [drop_shift]

theorem parseLenPrefixedOrFx_shift (p rest : List Byte) (off : Nat) (name : String) :
    parseLenPrefixedOrFx (p ++ rest) (p.length + off) name =
      parseLenPrefixedOrFx rest off name := by
  unfold parseLenPrefixedOrFx
  rw [getElem?_shift]
  rcases h : rest[off]? with - | rep <;>
    simp only [Nat.add_assoc, append_le_shift, toHex_shift, parseFxChainRaw_shift]

theorem decShift_fx (name : String) : ShiftOk (fun view off => parseFxChainRaw view off name) :=
  fun p rest off => parseFxChainRaw_shift p rest off name

theorem decShift_lenfx (name : String) :
    ShiftOk (fun view off => parseLenPrefixedOrFx view off name) :=
  fun p rest off => parseLenPrefixedOrFx_shift p rest off name

theorem decShift_I034_010 : ShiftOk decI034_010 := by
  intro p rest off
  simp only [decI034_010, Nat.add_assoc, append_lt_shift, jsByte_shift]

theorem decShift_I034_000 : ShiftOk decI034_000 := by
  intro p rest off
  simp only [decI034_000, Nat.add_assoc, append_lt_shift, jsByte_shift]

theorem decShift_I034_030 : ShiftOk decI034_030 := by
  intro p rest off
  simp only [decI034_030, Nat.add_assoc, append_lt_shift, jsByte_shift]

theorem decShift_I034_020 : ShiftOk decI034_020 := by
  intro p rest off
  simp only [decI034_020, Nat.add_assoc, append_lt_shift, jsByte_shift]

theorem decShift_I034_041 : ShiftOk decI034_041 := by
  intro p rest off
  simp only [decI034_041, Nat.add_assoc, append_lt_shift, jsByte_shift]

theorem decShift_I034_100 : ShiftOk decI034_100 := by
  intro p rest off
  simp only [decI034_100, Nat.add_assoc, append_lt_shift, jsByte_shift]

theorem decShift_I034_110 : ShiftOk decI034_110 := by
  intro p rest off
  simp only [decI034_110, Nat.add_assoc, append_lt_shift, jsByte_shift]

theorem decShift_I034_120 : ShiftOk decI034_120 := by
  intro p rest off
  simp only [decI034_120, Nat.add_assoc, append_lt_shift, jsByte_shift]

theorem decShift_I034_090 : ShiftOk decI034_090 := by
  intro p rest off
  simp only [decI034_090, Nat.add_assoc, append_lt_shift, jsByte_shift]

theorem decShift_I048_010 : ShiftOk decI048_010 := by
  intro p rest off
  simp only [decI048_010, Nat.add_assoc, append_lt_shift, jsByte_shift]

theorem decShift_I048_020 : ShiftOk decI048_020 := by
  intro p rest off
  simp only [decI048_020, drop_shift]

theorem decShift_I048_040 : ShiftOk decI048_040 := by
  intro p rest off
  simp only [decI048_040, Nat.add_assoc, append_lt_shift, readU16BE_shift]

theorem decShift_I048_070 : ShiftOk decI048_070 := by
  intro p rest off
  simp only [decI048_070, Nat.add_assoc, append_lt_shift, readU16BE_shift]

theorem decShift_I048_090 : ShiftOk decI048_090 := by
  intro p rest off
  simp only [decI048_090, Nat.add_assoc, append_lt_shift, readI16BE_shift]

theorem decShift_I048_220 : ShiftOk decI048_220 := by
  intro p rest off
  simp only [decI048_220, Nat.add_assoc, append_lt_shift, readU16BE_shift]

theorem decShift_I048_240 : ShiftOk decI048_240 := by
  intro p rest off
  simp only [decI048_240, Nat.add_assoc, append_lt_shift, toHex_shift]

theorem decShift_I048_161 : ShiftOk decI048_161 := by
  intro p rest off
  simp only [decI048_161, Nat.add_assoc, append_lt_shift, readU16BE_shift]

theorem decShift_I048_042 : ShiftOk decI048_042 := by
  intro p rest off
  simp only [decI048_042, Nat.add_assoc, append_lt_shift, readI16BE_shift]

theorem decShift_I048_200 : ShiftOk decI048_200 := by
  intro p rest off
  simp only [decI048_200, Nat.add_assoc, append_lt_shift, readI16BE_shift]

theorem decShift_I048_140 : ShiftOk decI048_140 := by
  intro p rest off
  simp only [decI048_140, Nat.add_assoc, append_lt_shift, readU24BE_shift]

theorem dec34_all_shift : ∀ q ∈ dec34map, ShiftOk q.2 := by
  intro q hq
  fin_cases hq <;>
    first
      | exact decShift_fx _
      | exact decShift_lenfx _
      | exact decShift_I034_010
      | exact decShift_I034_000
      | exact decShift_I034_030
      | exact decShift_I034_020
      | exact decShift_I034_041
      | exact decShift_I034_100
      | exact decShift_I034_110
      | exact decShift_I034_120
      | exact decShift_I034_090

theorem dec48_all_shift : ∀ q ∈ dec48map, ShiftOk q.2 := by
  intro q hq
  fin_cases hq <;>
    first
      | exact decShift_fx _
      | exact decShift_I048_010
      | exact decShift_I048_020
      | exact decShift_I048_040
      | exact decShift_I048_070
      | exact decShift_I048_090
      | exact decShift_I048_220
      | exact decShift_I048_240
      | exact decShift_I048_161
      | exact decShift_I048_042
      | exact decShift_I048_200
      | exact decShift_I048_140

theorem decMap_all_shift (cat : Nat) : ∀ q ∈ (DECODERS.lookup cat).getD [], ShiftOk q.2 := by
  intro q hq
  rcases h : DECODERS.lookup cat with - | dm
  · rw [h] at hq
    simp at hq
  · rw [h] at hq
    simp only [Option.getD_some] at hq
    have hdm : dm = dec34map ∨ dm = dec48map := by
      simp only [DECODERS, List.lookup] at h
      cases hc1 : (cat == 34)
      · rw [hc1] at h
        cases hc2 : (cat == 48)
        · rw [hc2] at h
          simp at h
        · rw [hc2] at h
          simp at h
          exact Or.inr h.symm
      · rw [hc1] at h
        simp at h
        exact Or.inl h.symm
    rcases hdm with rfl | rfl
    · exact dec34_all_shift q hq
    · exact dec48_all_shift q hq

theorem lookup_mem_dec (l : List (String × Decoder)) (k : String) (d : Decoder)
    (h : l.lookup k = some d) : (k, d) ∈ l := by
  induction l with
  | nil => simp at h
  | cons a t ih =>
    rcases a with ⟨a1, a2⟩
    rw [List.lookup_cons] at h
    cases hk : (k == a1)
    · rw [hk] at h
      simp only [] at h
      exact List.mem_cons_of_mem _ (ih h)
    · rw [hk] at h
      simp only [Option.some.injEq] at h
      have hka := eq_of_beq hk
      subst hka
      subst h
      exact List.mem_cons_self _ _

theorem walk_shift (p suf : List Byte) (decMap : List (String × Decoder)) (uap : List String)
    (e : Nat) (hdm : ∀ q ∈ decMap, ShiftOk q.2) :
    ∀ bits i cur items raws,
      walkItems (p ++ suf) decMap uap (p.length + e) bits i (p.length + cur) items raws =
        ((walkItems suf decMap uap e bits i cur items raws).1,
         (walkItems suf decMap uap e bits i cur items raws).2.1,
         p.length + (walkItems suf decMap uap e bits i cur items raws).2.2) := by
  intro bits
  induction bits with
  | nil => intro i cur items raws; simp [walkItems]
  | cons b rest2 ih =>
    intro i cur items raws
    by_cases hb : b = 1
    · subst hb
      rw [walkItems, walkItems]
      rcases hu : uap[i]? with - | itemId
      · rfl
      · dsimp only
        rcases hd : decMap.lookup itemId with - | dec
        · rfl
        · dsimp only
          have hs : ShiftOk dec := hdm (itemId, dec) (lookup_mem_dec decMap itemId dec hd)
          rw [hs p suf cur]
          rcases hdec : dec suf cur with msg | vl
          · rfl
          · rcases vl with ⟨v, len⟩
            dsimp only
            by_cases hofl : e < cur + len
            · rw [if_pos (show p.length + e < p.length + cur + len from by omega),
                if_pos hofl]
              rfl
            · rw [if_neg (show ¬ p.length + e < p.length + cur + len from by omega),
                if_neg hofl]
              rw [show p.length + cur + len = p.length + (cur + len) from by omega]
              exact ih (i + 1) (cur + len) (items ++ [(itemId, v)]) raws
    · rw [walkItems, walkItems, if_neg hb, if_neg hb]
      exact ih (i + 1) cur items raws

theorem parseRecord_shift (p suf : List Byte) (off : Nat) :
    parseRecord (p ++ suf) (p.length + off) =
      (parseRecord suf off).map (fun x => (x.1, p.length + x.2)) := by
  unfold parseRecord
  by_cases h3 : suf.length < off + 3
  · rw [if_pos (show (p ++ suf).length < p.length + off + 3 from by
      rw [List.length_append]; omega), if_pos h3]
    rfl
  · rw [if_neg (show ¬ (p ++ suf).length < p.length + off + 3 from by
      rw [List.length_append]; omega), if_neg h3]
    rw [show p.length + off + 1 = p.length + (off + 1) from by omega]
    rw [readU16BE_shift, jsByte_shift]
    by_cases hend : suf.length < off + (readU16BE suf (off + 1)).toNat
    · rw [if_pos (show (p ++ suf).length <
          p.length + off + (readU16BE suf (off + 1)).toNat from by
        rw [List.length_append]; omega), if_pos hend]
      rfl
    · rw [if_neg (show ¬ (p ++ suf).length <
          p.length + off + (readU16BE suf (off + 1)).toNat from by
        rw [List.length_append]; omega), if_neg hend]
      rw [show p.length + off + 3 = p.length + (off + 3) from by omega]
      unfold parseFSPEC
      rw [drop_shift]
      rcases hfs : fxOctets (suf.drop (off + 3)) with - | bs
      · rfl
      · rw [Option.map_some', Option.map_some']
        dsimp only
        rcases hcat : CATEGORY_DEFS (jsByte suf off) with - | uap
      -- unknown category
        · dsimp only
          rw [show p.length + (off + 3) + bs.length = p.length + (off + 3 + bs.length) from
            by omega]
          rw [show p.length + off + (readU16BE suf (off + 1)).toNat =
            p.length + (off + (readU16BE suf (off + 1)).toNat) from by omega]
          rw [Nat.add_sub_add_left, toHex_shift]
          rfl
        · dsimp only
          rw [show p.length + (off + 3) + bs.length = p.length + (off + 3 + bs.length) from
            by omega]
          rw [show p.length + off + (readU16BE suf (off + 1)).toNat =
            p.length + (off + (readU16BE suf (off + 1)).toNat) from by omega]
          rw [walk_shift p suf ((DECODERS.lookup (jsByte suf off)).getD []) uap
            (off + (readU16BE suf (off + 1)).toNat) (decMap_all_shift (jsByte suf off))
            (bitsOf bs) 0 (off + 3 + bs.length) [] []]
          rcases hw : walkItems suf ((DECODERS.lookup (jsByte suf off)).getD []) uap
              (off + (readU16BE suf (off + 1)).toNat) (bitsOf bs) 0 (off + 3 + bs.length) [] []
            with ⟨items2, rw2⟩
          rcases rw2 with ⟨raws2, cur2⟩
          dsimp only
          by_cases ht : cur2 < off + (readU16BE suf (off + 1)).toNat
          · rw [if_pos (show p.length + cur2 <
                p.length + (off + (readU16BE suf (off + 1)).toNat) from by omega), if_pos ht]
            rw [Nat.add_sub_add_left, toHex_shift]
            rfl
          · rw [if_neg (show ¬ p.length + cur2 <
                p.length + (off + (readU16BE suf (off + 1)).toNat) from by omega), if_neg ht]
            rfl

theorem jsByte_prefix_eq (p e : List Byte) (k : Nat) (h : k < p.length) :
    jsByte (p ++ e) k = jsByte p k := by
  unfold jsByte
  rw [List.getElem?_append, if_pos h]

theorem readU16BE_prefix_eq (p e : List Byte) (off : Nat) (h : off + 2 ≤ p.length) :
    readU16BE (p ++ e) off = readU16BE p off := by
  unfold readU16BE
  rw [jsByte_prefix_eq p e off (by omega), jsByte_prefix_eq p e (off + 1) (by omega)]

theorem fxOctets_append (l e o : List Byte) (h : fxOctets l = some o) :
    fxOctets (l ++ e) = some o := by
  induction l generalizing o with
  | nil => exact Option.noConfusion h
  | cons b rest ih =>
    rw [List.cons_append]
    rw [fxOctets] at h ⊢
    by_cases hb : b.val &&& 1 = 0
    · rw [if_pos hb] at h ⊢; exact h
    · rw [if_neg hb] at h ⊢
      rcases hr : fxOctets rest with - | o2
      · rw [hr] at h; exact Option.noConfusion h
      · rw [hr, Option.map_some'] at h
        rw [ih o2 hr, Option.map_some']
        exact h

theorem parseRecord_prefix_eq (b1 b2 : List Byte) (r1 : Rec)
    (h1 : parseRecord b1 0 = .ok (r1, b1.length)) :
    ∃ r1i : Rec, parseRecord (b1 ++ b2) 0 = .ok (r1i, b1.length) ∧
      r1i.category = r1.category ∧ r1i.length = r1.length ∧
      r1i.fspec_hex = r1.fspec_hex := by
  unfold parseRecord at h1 ⊢
  by_cases h3 : b1.length < 0 + 3
  · rw [if_pos h3] at h1; exact Except.noConfusion h1
  · rw [if_neg h3] at h1
    by_cases hend : b1.length < 0 + (readU16BE b1 (0 + 1)).toNat
    · rw [if_pos hend] at h1; exact Except.noConfusion h1
    · rw [if_neg hend] at h1
      rw [readU16BE_prefix_eq b1 b2 (0 + 1) (by omega), jsByte_prefix_eq b1 b2 0 (by omega)]
      rw [if_neg (show ¬ (b1 ++ b2).length < 0 + 3 from by rw [List.length_append]; omega)]
      rw [if_neg (show ¬ (b1 ++ b2).length < 0 + (readU16BE b1 (0 + 1)).toNat from by
        rw [List.length_append]; omega)]
      unfold parseFSPEC at h1 ⊢
      rcases hfx : fxOctets (b1.drop (0 + 3)) with - | bs
      · rw [hfx] at h1; exact Except.noConfusion h1
      · rw [hfx, Option.map_some'] at h1
        dsimp only at h1
        rw [show (b1 ++ b2).drop (0 + 3) = b1.drop (0 + 3) ++ b2 from
          List.drop_append_of_le_length (by omega)]
        rw [fxOctets_append _ b2 bs hfx, Option.map_some']
        dsimp only
        rcases hcat : CATEGORY_DEFS (jsByte b1 0) with - | uap
        · rw [hcat] at h1
          dsimp only at h1
          dsimp only
          injection h1 with hh
          injection hh with hr hoff
          subst hr
          rw [hoff]
          exact ⟨_, rfl, rfl, rfl, rfl⟩
        · rw [hcat] at h1
          dsimp only at h1
          rcases hw1 : walkItems b1 ((DECODERS.lookup (jsByte b1 0)).getD []) uap
              (0 + (readU16BE b1 (0 + 1)).toNat) (bitsOf bs) 0 (0 + 3 + bs.length) [] []
            with ⟨items1, rw1⟩
          rcases rw1 with ⟨raws1, cur1⟩
          rw [hw1] at h1
          dsimp only at h1
          injection h1 with hh
          injection hh with hr hoff
          subst hr
          rcases hw2 : walkItems (b1 ++ b2) ((DECODERS.lookup (jsByte b1 0)).getD []) uap
              (0 + (readU16BE b1 (0 + 1)).toNat) (bitsOf bs) 0 (0 + 3 + bs.length) [] []
            with ⟨items2, rw2⟩
          rcases rw2 with ⟨raws2, cur2⟩
          dsimp only
          rw [hoff]
          exact ⟨_, rfl, rfl, rfl, rfl⟩

/-- Claim C4 (amended): if each of two buffers decodes on its own into exactly
one record consuming the whole buffer, then the stream decoder on their
concatenation yields exactly two records. The second is identical,
field for field, to the record decoded from the second buffer alone
(by translation invariance of `parseRecord`). The first agrees with the
record decoded from the first buffer alone on category, declared length and
FSPEC hex, but its items and diagnostics are not guaranteed to match,
because its item decoders may read past the declared end into the second
buffer's bytes (see the counterexample). -/
theorem claim4_concat_amended (b1 b2 : List Byte) (r1 r2 : Rec)
    (h1 : parseRecord b1 0 = .ok (r1, b1.length))
    (h2 : parseRecord b2 0 = .ok (r2, b2.length)) :
    ∃ r1i : Rec,
      parseAsterixStream (b1 ++ b2) 2 0 = some (.ok [r1i, r2]) ∧
      r1i.category = r1.category ∧ r1i.length = r1.length ∧
      r1i.fspec_hex = r1.fspec_hex := by
  have hb1 : 3 ≤ b1.length := by
    by_contra hlt
    unfold parseRecord at h1
    rw [if_pos (by omega)] at h1
    exact Except.noConfusion h1
  have hb2 : 3 ≤ b2.length := by
    by_contra hlt
    unfold parseRecord at h2
    rw [if_pos (by omega)] at h2
    exact Except.noConfusion h2
  obtain ⟨r1i, hp, hc, hl, hf⟩ := parseRecord_prefix_eq b1 b2 r1 h1
  have hshift := parseRecord_shift b1 b2 0
  rw [Nat.add_zero] at hshift
  have hrec2 : parseRecord (b1 ++ b2) b1.length = .ok (r2, b1.length + b2.length) := by
    rw [hshift, h2]; rfl
  have e0 : parseAsterixStream (b1 ++ b2) 0 (b1.length + b2.length) = some (.ok []) := by
    rw [parseAsterixStream]
    rw [if_neg (show ¬ b1.length + b2.length < (b1 ++ b2).length from by
      rw [List.length_append]; omega)]
  have e1 : parseAsterixStream (b1 ++ b2) 1 b1.length = some (.ok [r2]) := by
    rw [show (1 : Nat) = 0 + 1 from rfl, parseAsterixStream]
    rw [if_pos (show b1.length < (b1 ++ b2).length from by rw [List.length_append]; omega)]
    rw [hrec2]
    dsimp only
    rw [e0]
    rfl
  refine ⟨r1i, ?_, hc, hl, hf⟩
  rw [show (2 : Nat) = 1 + 1 from rfl, parseAsterixStream]
  rw [if_pos (show 0 < (b1 ++ b2).length from by rw [List.length_append]; omega)]
  rw [hp]
  dsimp only
  rw [e1]
  rfl

/-- Witness for C4 (amended): two copies of the minimal category-48 record
`30 00 04 00` concatenate into a stream of exactly two records. -/
theorem claim4_witness :
    ∃ r1i : Rec,
      parseAsterixStream (([48, 0, 4, 0] : List Byte) ++ [48, 0, 4, 0]) 2 0 =
        some (.ok [r1i, ⟨48, 4, "00", [], []⟩]) ∧
      r1i.category = (⟨48, 4, "00", [], []⟩ : Rec).category ∧
      r1i.length = (⟨48, 4, "00", [], []⟩ : Rec).length ∧
      r1i.fspec_hex = (⟨48, 4, "00", [], []⟩ : Rec).fspec_hex :=
  claim4_concat_amended [48, 0, 4, 0] [48, 0, 4, 0]
    ⟨48, 4, "00", [], []⟩ ⟨48, 4, "00", [], []⟩ rfl rfl
